import Mathlib

/-!
# FusionStorage control-plane client: the failover command runner and the REST session core

A shallow embedding of `contrib/drivers/huawei/fusionstorage/fsclient.go`.

* Go strings are modelled by Lean `String`s (sequences of Unicode code points), so the
  embedding speaks about textual output that is valid UTF-8.
* A Go `error` is modelled by its message; `(value, nil)` / `(nil, err)` returns become
  `Except`, and a run-time panic is an outcome of its own.
* The collaborators the file does not own (the root executer, the HTTP transport, the JSON
  codec, the package constants declared in sibling files) are parameters.
-/

namespace FusionStorage

/-! ## Go library primitives -/

namespace unicode

/-- Go `unicode.IsSpace`: the Latin-1 spaces `\t \n \v \f \r`, space, U+0085, U+00A0 and
the code points with the White_Space property above Latin-1. -/
def IsSpace (c : Char) : Bool :=
  let n := c.toNat
  (9 ≤ n && n ≤ 13) || n == 32 || n == 0x85 || n == 0xA0 || n == 0x1680 ||
  (0x2000 ≤ n && n ≤ 0x200A) || n == 0x2028 || n == 0x2029 || n == 0x202F ||
  n == 0x205F || n == 0x3000

end unicode

namespace strings

/-- Go `strings.TrimSpace`: all leading and trailing white space removed. -/
def TrimSpace (s : String) : String :=
  ⟨((s.data.dropWhile unicode.IsSpace).reverse.dropWhile unicode.IsSpace).reverse⟩

/-- The pieces of a character sequence between the occurrences of `sep`. -/
def splitChars (sep : Char) : List Char → List (List Char)
  | [] => [[]]
  | c :: cs =>
    if c = sep then [] :: splitChars sep cs
    else
      match splitChars sep cs with
      | [] => [[c]]
      | piece :: pieces => (c :: piece) :: pieces

/-- Go `strings.Split(s, sep)` for a one-character separator: the substrings between the
separators, one more than there are separators (so never an empty slice). -/
def Split (s : String) (sep : Char) : List String :=
  (splitChars sep s.data).map String.mk

/-- Go `strings.HasPrefix`. -/
def HasPrefix (s pre : String) : Bool :=
  pre.data.isPrefixOf s.data

end strings

/-- Go slice expression `s[n:]` on a string whose first `n` bytes are one-byte characters. -/
def sliceFrom (s : String) (n : Nat) : String :=
  ⟨s.data.drop n⟩

/-! ## ErrorTranslator: `CliErrorMap`, `CliError`, `NewCliError` -/

/-- The static table `CliErrorMap` (a Go map literal: keys are pairwise distinct). -/
def CliErrorMap : List (String × String) :=
  [ ("50000001", "DSware error"),
    ("50150001", "Receive a duplicate request"),
    ("50150002", "Command type is not supported"),
    ("50150003", "Command format is error"),
    ("50150004", "Lost contact with major VBS"),
    ("50150005", "Volume does not exist"),
    ("50150006", "Snapshot does not exist"),
    ("50150007", "Volume already exists or name exists or name duplicates with a snapshot name"),
    ("50150008", "The snapshot has already existed"),
    ("50150009", "VBS space is not enough"),
    ("50150010", "The node type is error"),
    ("50150011", "Volume and snapshot number is beyond max"),
    ("50150012", "VBS is not ready"),
    ("50150013", "The ref num of node is not 0"),
    ("50150014", "The volume is not in the pre-deletion state."),
    ("50150015", "The storage resource pool is faulty"),
    ("50150016", "VBS handle queue busy"),
    ("50150017", "VBS handle request timeout"),
    ("50150020", "VBS metablock is locked"),
    ("50150021", "VBS pool dose not exist"),
    ("50150022", "VBS is not ok"),
    ("50150023", "VBS pool is not ok"),
    ("50150024", "VBS dose not exist"),
    ("50150064", "VBS load SCSI-3 lock pr meta failed"),
    ("50150100", "The disaster recovery relationship exists"),
    ("50150101", "The DR relationship does not exist"),
    ("50150102", "Volume has existed mirror"),
    ("50150103", "The volume does not have a mirror"),
    ("50150104", "Incorrect volume status"),
    ("50150105", "The mirror volume already exists") ]

/-- The Go struct `CliError`. -/
structure CliError where
  Msg : String
  Code : String
  deriving DecidableEq, Repr

/-- Go `NewCliErrorBase`. -/
def NewCliErrorBase (msg code : String) : CliError :=
  { Msg := msg, Code := code }

/-- Go `NewCliError`: the mapped message when `code` is a key of `CliErrorMap`, the generic
message otherwise. -/
def NewCliError (code : String) : CliError :=
  match CliErrorMap.lookup code with
  | some msg => NewCliErrorBase msg code
  | none => NewCliErrorBase "CLI execute error" code

/-- Go `(*CliError).Error`: `fmt.Sprintf("msg: %s, code:%s", c.Msg, c.Code)`. -/
def CliError.Error (c : CliError) : String :=
  "msg: " ++ c.Msg ++ ", code:" ++ c.Code

/-! ## The client value -/

/-- The Go struct `Cli` without its executer, which is passed to `RunCmd` explicitly.
`headers` is the Go map `c.headers` (non-nil, as `newRestCommon` builds it), kept as an
association list with pairwise distinct keys. -/
structure Cli where
  username : String
  password : String
  version : String
  addess : String
  headers : List (String × String)
  fmIp : String
  fsaIp : List String
  deriving DecidableEq, Repr

/-! ## FailoverCommandRunner: `RunCmd` -/

/-- The root executer as `RunCmd` sees it: the combined output of the `n`-th invocation
(counted from 0 within one `RunCmd`) made with the given argument list. The error value of
`Run` is discarded by `RunCmd` and is not modelled. -/
abbrev Executer := Nat → List String → String

/-- The constant `resultPrefix` of `RunCmd`. -/
def resultPrefix : String := "result="

/-- The inner loop of `RunCmd`: every line that starts with `resultPrefix` overwrites
`result` with the text after the prefix. -/
def scanResult (result : String) (lines : List String) : String :=
  lines.foldl
    (fun result line =>
      if strings.HasPrefix line resultPrefix then sliceFrom line resultPrefix.length
      else result)
    result

/-- What one `RunCmd` does: its two return values and the executer invocations it made,
oldest first. -/
structure RunCmdResult where
  ret : Except CliError (List String)
  calls : List (List String)

/-- The `for _, ip := range c.fsaIp` loop of `RunCmd`. `args` is the argument slice that is
overwritten in place, `n` the number of invocations made so far, `result` the variable
declared before the loop. -/
def RunCmdLoop (run : Executer) :
    List String → List String → Nat → String → List (List String) → RunCmdResult
  | _, [], _, result, calls => { ret := .error (NewCliError result), calls := calls }
  | args, ip :: rest, n, result, calls =>
    let args := args.set (args.length - 1) ip
    let out := run n args
    let lines := strings.Split (strings.TrimSpace out) (Char.ofNat 10)
    if lines.length > 0 then
      let result := scanResult result lines
      if result = "0" then
        { ret := .ok (lines.take (lines.length - 1)), calls := calls ++ [args] }
      else RunCmdLoop run args rest (n + 1) result (calls ++ [args])
    else RunCmdLoop run args rest (n + 1) result (calls ++ [args])

/-- Go `(*Cli).RunCmd`. -/
def RunCmd (run : Executer) (c : Cli) (args : List String) : RunCmdResult :=
  let args := args ++ ["--manage_ip", c.fmIp, "--ip", ""]
  RunCmdLoop run args c.fsaIp 0 "" []

/-- The argument list `RunCmd` hands to the executer for the agent `ip`. -/
def agentArgs (c : Cli) (args : List String) (ip : String) : List String :=
  args ++ ["--manage_ip", c.fmIp, "--ip", ip]

/-- The output lines (trimmed, split on newlines) the executer yields for the agents `ips`
when they are invoked in order as invocations `n`, `n + 1`, ... -/
def agentLinesFrom (run : Executer) (c : Cli) (args : List String) :
    List String → Nat → List (List String)
  | [], _ => []
  | ip :: rest, n =>
    strings.Split (strings.TrimSpace (run n (agentArgs c args ip))) (Char.ofNat 10) ::
      agentLinesFrom run c args rest (n + 1)

/-- The output lines of every agent of `c.fsaIp`, in list order: entry `i` is the output
of agent `i` when it is the `i`-th one invoked. -/
def agentLines (run : Executer) (c : Cli) (args : List String) : List (List String) :=
  agentLinesFrom run c args c.fsaIp 0

/-- The last line of `lines` that starts with `result=`, when there is one. -/
def lastResultLine (lines : List String) : Option String :=
  (lines.filter (fun l => strings.HasPrefix l resultPrefix)).getLast?

/-- The result code of a sweep as the specification words it, on the agents' outputs given
last agent first: the text after `result=` on the last result line of the last agent's
output, or, when that agent printed no result line, the code most recently observed from an
earlier agent; the empty string when no agent printed a result line. -/
def specLastObservedCode : List (List String) → String
  | [] => ""
  | last :: earlier =>
    match lastResultLine last with
    | some l => sliceFrom l resultPrefix.length
    | none => specLastObservedCode earlier

/-! ## `fmt.Errorf` with a format and no operands -/

namespace fmt

/-- Go `fmt.tooLarge`. -/
def tooLarge (x : Nat) : Bool :=
  decide (x > 1000000)

/-- The `for` loop of `fmt.parsenum`; `fuel` bounds the characters left before `stop`. -/
def parsenumLoop (s : List Char) (stop : Nat) : Nat → Nat → Nat → Bool → Nat × Bool × Nat
  | 0, newi, num, isnum => (num, isnum, newi)
  | fuel + 1, newi, num, isnum =>
    let ch := s.getD newi ' '
    if newi < stop && decide ('0' ≤ ch) && decide (ch ≤ '9') then
      if tooLarge num then (0, false, stop)
      else parsenumLoop s stop fuel (newi + 1) (num * 10 + (ch.toNat - 48)) true
    else (num, isnum, newi)

/-- Go `fmt.parsenum(s, start, end)`: `(num, isnum, newi)`. -/
def parsenum (s : List Char) (start stop : Nat) : Nat × Bool × Nat :=
  if start ≥ stop then (0, false, stop)
  else parsenumLoop s stop (stop - start) start 0 false

/-- The position of the first `]` of `s`, where the head of `s` has position `i`. -/
def findClose : List Char → Nat → Option Nat
  | [], _ => none
  | ch :: rest, i => if ch = ']' then some i else findClose rest (i + 1)

/-- Go `fmt.parseArgNumber(format)`: `(index, wid, ok)` for a format that starts at `[`. -/
def parseArgNumber (format : List Char) : Int × Nat × Bool :=
  if format.length < 3 then (0, 1, false)
  else
    match findClose (format.drop 1) 1 with
    | none => (0, 1, false)
    | some i =>
      let (width, ok, newi) := parsenum format 1 i
      if !ok || newi != i then (0, i + 1, false)
      else ((width : Int) - 1, i + 1, true)

/-- The flag loop of `doPrintf`: skips `#`, `0`, `+`, `-` and space. Without operands the
fast path for simple verbs is never taken. -/
def skipFlags (format : List Char) (stop : Nat) : Nat → Nat → Nat
  | 0, i => i
  | fuel + 1, i =>
    let ch := format.getD i ' '
    if i < stop && (ch = '#' || ch = '0' || ch = '+' || ch = '-' || ch = ' ') then
      skipFlags format stop fuel (i + 1)
    else i

/-- The variables of `doPrintf` that one verb reads and writes when there are no operands:
the position `i`, `afterIndex`, `p.goodArgNum` and what the verb has written to `p.buf`.
(`argNum` stays 0 and `p.reordered` only matters when operands are left over.) -/
structure VerbState where
  i : Nat
  afterIndex : Bool
  goodArgNum : Bool
  buf : List Char

/-- Go `(*pp).argNumber` when there are no operands (`numArgs = 0`, so no index is in
range), with its result `found` assigned to `afterIndex` as every call site does. -/
def argNumber (format : List Char) (st : VerbState) : VerbState :=
  if format.length ≤ st.i || format.getD st.i ' ' != '[' then { st with afterIndex := false }
  else
    let parsed := parseArgNumber (format.drop st.i)
    { st with i := st.i + parsed.2.1, afterIndex := parsed.2.2, goodArgNum := false }

/-- The width part of a verb: `*` takes the width from a (missing) operand and writes
`%!(BADWIDTH)`, otherwise a number is parsed. -/
def widthStep (format : List Char) (st : VerbState) : VerbState :=
  if st.i < format.length && format.getD st.i ' ' = '*' then
    { st with i := st.i + 1, afterIndex := false, buf := st.buf ++ "%!(BADWIDTH)".data }
  else
    let parsed := parsenum format st.i format.length
    { st with
      i := parsed.2.2,
      goodArgNum := if st.afterIndex && parsed.2.1 then false else st.goodArgNum }

/-- The precision proper, after the `.` and an optional argument index: `*` takes it from a
(missing) operand and writes `%!(BADPREC)`, otherwise a number is parsed. -/
def precValue (format : List Char) (st : VerbState) : VerbState :=
  if st.i < format.length && format.getD st.i ' ' = '*' then
    { st with i := st.i + 1, afterIndex := false, buf := st.buf ++ "%!(BADPREC)".data }
  else { st with i := (parsenum format st.i format.length).2.2 }

/-- The precision part of a verb, entered at a `.` that is not the last character. -/
def precStep (format : List Char) (st : VerbState) : VerbState :=
  if st.i + 1 < format.length && format.getD st.i ' ' = '.' then
    precValue format
      (argNumber format
        { st with
          i := st.i + 1,
          goodArgNum := if st.afterIndex then false else st.goodArgNum })
  else st

/-- The argument index that may stand right before the verb: `if !afterIndex { ... }`. -/
def lastIndex (format : List Char) (st : VerbState) : VerbState :=
  if !st.afterIndex then argNumber format st else st

/-- The end of a verb: `%!(NOVERB)` at the end of the format, `%` for `%%`, and for any
other verb character `%!v(BADINDEX)` after a bad argument index or `%!v(MISSING)`. -/
def writeVerb (format : List Char) (st : VerbState) : List Char × Nat :=
  if st.i ≥ format.length then (st.buf ++ "%!(NOVERB)".data, st.i)
  else
    let verb := format.getD st.i ' '
    if verb = '%' then (st.buf ++ ['%'], st.i + 1)
    else if !st.goodArgNum then
      (st.buf ++ "%!".data ++ [verb] ++ "(BADINDEX)".data, st.i + 1)
    else (st.buf ++ "%!".data ++ [verb] ++ "(MISSING)".data, st.i + 1)

/-- One verb of `doPrintf` without operands, from the position `i` after its `%`: what is
written to the buffer and the position after the verb. -/
def doVerb (format : List Char) (i : Nat) : List Char × Nat :=
  let st : VerbState :=
    { i := skipFlags format format.length (format.length - i) i, afterIndex := false,
      goodArgNum := true, buf := [] }
  writeVerb format
    (lastIndex format (precStep format (widthStep format (argNumber format st))))

/-- The `formatLoop` of `doPrintf` without operands, from position `i`; every round moves
`i` forward, so `fuel = len(format)` rounds are enough. -/
def doPrintfLoop (format : List Char) : Nat → Nat → List Char
  | 0, _ => []
  | fuel + 1, i =>
    if i ≥ format.length then []
    else
      let ch := format.getD i ' '
      if ch ≠ '%' then ch :: doPrintfLoop format fuel (i + 1)
      else
        let (written, newi) := doVerb format (i + 1)
        written ++ doPrintfLoop format fuel newi

/-- The message of `fmt.Errorf(format)` called with a format and no operands. -/
def Errorf (format : String) : String :=
  ⟨doPrintfLoop format.data format.data.length 0⟩

end fmt

/-! ## SessionClient: `request` -/

/-- Go `strconv.Itoa`. -/
def Itoa (n : Int) : String :=
  toString n

/-- Go map assignment `m[k] = v` on the association-list view of a `map[string]string`. -/
def mapSet (m : List (String × String)) (k v : String) : List (String × String) :=
  (k, v) :: m.filter (fun entry => entry.1 != k)

/-- Go map index `m[k]` on a `map[string][]string` (`http.Header`): the nil slice when the
key is absent. -/
def headerValues (m : List (String × List String)) (k : String) : List String :=
  (m.lookup k).getD []

/-- The part of `*http.Request` the client decides: method, address, the `Header.Set(k, v)`
calls made for the stored headers, and the body. -/
structure Request where
  Method : String
  URL : String
  Header : List (String × String)
  Body : String
  deriving DecidableEq, Repr

/-- The part of `*http.Response` the client reads. `Header` is `none` for a nil map;
`Body` is what `ioutil.ReadAll(resp.Body)` returns. -/
structure Response where
  StatusCode : Int
  Header : Option (List (String × List String))
  Body : Except String String

/-- The envelope type `responseResult` (declared in a sibling file of the package): only
its integer field `RespCode` is read by `request`. -/
structure responseResult where
  RespCode : Int
  deriving DecidableEq, Repr

/-- What `request` depends on and does not define: the package constant `BasicURI`, and
the library calls `json.Marshal`, `strings.ToUpper`, `http.NewRequest` (its error, if any),
`client.Do`, `json.Unmarshal` into a `*responseResult` (an error, or the pointer it leaves:
`none` for nil), and the caller's function name and line from `runtime.Caller(1)`. -/
structure Env (Params : Type) where
  BasicURI : String
  Marshal : Params → Except String String
  ToUpper : String → String
  NewRequest : String → String → String → Option String
  Do : Request → Except String Response
  Unmarshal : String → Except String (Option responseResult)
  CallerName : String
  CallerLine : Int

/-- How a call of `request` ends: `(value, nil)`, `(nil, err)` with the error's message, or
a run-time panic. -/
inductive Outcome where
  | ok (content : String)
  | err (msg : String)
  | panic
  deriving DecidableEq, Repr

/-- What one `request` does: how it ends, the client afterwards, and the requests handed
to `client.Do` (at most one). -/
structure RequestResult where
  ret : Outcome
  cli : Cli
  sent : List Request

/-- The address `request` builds: `callUrl`. -/
def callUrl (basicURI : String) (c : Cli) (url : String) (isGetVersion : Bool) : String :=
  if !isGetVersion then c.addess ++ basicURI ++ c.version ++ url
  else c.addess ++ basicURI ++ url

/-- The request body: `json.Marshal(reqParams)` when `reqParams != nil`, empty otherwise. -/
def marshalBody {Params : Type} (env : Env Params) (reqParams : Option Params) :
    Except String String :=
  match reqParams with
  | some params => env.Marshal params
  | none => .ok ""

/-- The request `request` hands to `client.Do`. -/
def buildRequest {Params : Type} (env : Env Params) (c : Cli) (url method : String)
    (isGetVersion : Bool) (body : String) : Request :=
  { Method := env.ToUpper method, URL := callUrl env.BasicURI c url isGetVersion,
    Header := c.headers, Body := body }

/-- The message of the error returned for a status in 400..599. -/
def statusError {Params : Type} (env : Env Params) (status : Int)
    (respContent callUrl : String) : String :=
  "return status code is: " ++ Itoa status ++ ", return content is: " ++ respContent ++
    ", error function is: " ++ env.CallerName ++ ", error line is: " ++
    Itoa env.CallerLine ++ ", url is " ++ callUrl

/-- The token capture at the end of `request`. -/
def captureToken (c : Cli) (header : Option (List (String × List String))) : Cli :=
  match header with
  | none => c
  | some h =>
    match headerValues h "X-Auth-Token" with
    | [] => c
    | token :: _ => { c with headers := mapSet c.headers "x-auth-token" token }

/-- Go `(*Cli).request`. The two `fmt.Println` calls are not modelled. -/
def request {Params : Type} (env : Env Params) (c : Cli) (url method : String)
    (isGetVersion : Bool) (reqParams : Option Params) : RequestResult :=
  let callUrl := callUrl env.BasicURI c url isGetVersion
  match marshalBody env reqParams with
  | .error err =>
    { ret := .err ("Failed to marshal the request parameters, url is " ++ callUrl ++
        ", error is " ++ err), cli := c, sent := [] }
  | .ok body =>
    match env.NewRequest (env.ToUpper method) callUrl body with
    | some err =>
      { ret := .err ("Failed to initiate the request, url is " ++ callUrl ++
          ", error is " ++ err), cli := c, sent := [] }
    | none =>
      let req := buildRequest env c url method isGetVersion body
      match env.Do req with
      | .error err =>
        { ret := .err ("Process request failed: " ++ err ++ ", url is " ++ callUrl),
          cli := c, sent := [req] }
      | .ok resp =>
        match resp.Body with
        | .error err =>
          { ret := .err ("Read from response body failed: " ++ err ++ ", url is " ++ callUrl),
            cli := c, sent := [req] }
        | .ok respContent =>
          if 400 ≤ resp.StatusCode ∧ resp.StatusCode ≤ 599 then
            { ret := .err (statusError env resp.StatusCode respContent callUrl),
              cli := c, sent := [req] }
          else
            match env.Unmarshal respContent with
            | .error err => { ret := .err err, cli := c, sent := [req] }
            | .ok none => { ret := .panic, cli := c, sent := [req] }
            | .ok (some respResult) =>
              if respResult.RespCode ≠ 0 then
                { ret := .err (fmt.Errorf respContent), cli := c, sent := [req] }
              else
                { ret := .ok respContent, cli := captureToken c resp.Header, sent := [req] }

/-- The call of `request` gets a response: the parameters marshal, `http.NewRequest`
accepts the request, `client.Do` answers `resp` and its body reads as `respContent`. -/
def Receives {Params : Type} (env : Env Params) (c : Cli) (url method : String)
    (isGetVersion : Bool) (reqParams : Option Params) (resp : Response)
    (respContent : String) : Prop :=
  ∃ body, marshalBody env reqParams = .ok body ∧
    env.NewRequest (env.ToUpper method) (callUrl env.BasicURI c url isGetVersion) body = none ∧
    env.Do (buildRequest env c url method isGetVersion body) = .ok resp ∧
    resp.Body = .ok respContent

/-! ## Sample data for the worked instances -/

/-- A client with three agents. -/
def sampleCli : Cli :=
  { username := "admin", password := "secret", version := "v3", addess := "https://fm:28443",
    headers := [("Content-Type", "application/json;charset=UTF-8")],
    fmIp := "10.0.0.1", fsaIp := ["10.0.0.2", "10.0.0.3", "10.0.0.4"] }

/-- An executer whose first agent reports a failure, whose second agent prints `result=0`
and then a later failing result line, and whose third agent prints a failing result line
and then a final `result=0`. -/
def sampleRun : Executer := fun n _ =>
  match n with
  | 0 => "busy\nresult=50150016\n"
  | 1 => "result=0\nresult=50150005"
  | 2 => "pool=3\nresult=50150004\nresult=0\n"
  | _ => ""

/-- An executer no agent of which succeeds: the first two print failing codes, the third
prints no result line. -/
def failingRun : Executer := fun n _ =>
  match n with
  | 0 => "result=50150016"
  | 1 => "retry\nresult=50150005\n"
  | _ => "connection refused"

/-- An executer whose agents print no result line at all. -/
def silentRun : Executer := fun _ _ => "connection refused\n"

/-- A client with one agent. -/
def oneAgentCli : Cli :=
  { username := "admin", password := "secret", version := "v3", addess := "https://fm:28443",
    headers := [], fmIp := "10.0.0.1", fsaIp := ["10.0.0.2"] }

/-- An executer whose output carries the line `result=0` before a payload line. -/
def leadingResultRun : Executer := fun _ _ => "result=0\nportal=10.0.0.9"

/-- A collaborator set whose transport answers every request with `resp` and whose JSON
decoder yields `decoded` for every body. -/
def sampleEnv (resp : Response) (decoded : Except String (Option responseResult)) :
    Env String :=
  { BasicURI := "/dsware/service/",
    Marshal := fun params => .ok params,
    ToUpper := String.toUpper,
    NewRequest := fun _ _ _ => none,
    Do := fun _ => .ok resp,
    Unmarshal := fun _ => decoded,
    CallerName := "fusionstorage.(*Cli).createVolume",
    CallerLine := 164 }

/-- A response with the given status, headers and body text. -/
def sampleResponse (status : Int) (header : Option (List (String × List String)))
    (content : String) : Response :=
  { StatusCode := status, Header := header, Body := .ok content }

/-- An envelope body with response code 1 whose text contains a `%`. -/
def percentBody : String :=
  "\x7b\"result\":1,\"description\":\"pool usage 100%\"\x7d"

/-! ## Facts about the library primitives -/

theorem splitChars_ne_nil (sep : Char) (cs : List Char) : strings.splitChars sep cs ≠ [] := by
  cases cs with
  | nil => simp [strings.splitChars]
  | cons c cs =>
    simp only [strings.splitChars]
    split
    · simp
    · split <;> simp

theorem Split_length_pos (s : String) (sep : Char) : 0 < (strings.Split s sep).length := by
  have h := splitChars_ne_nil sep s.data
  simp only [strings.Split, List.length_map]
  exact List.length_pos.mpr h

theorem hasPrefix_result_zero : strings.HasPrefix "result=0" resultPrefix = true := by
  decide

/-- On a line that starts with `result=`, the text after the prefix is `0` exactly when the
line is `result=0`. -/
theorem sliceFrom_eq_zero_iff (line : String)
    (h : strings.HasPrefix line resultPrefix = true) :
    sliceFrom line resultPrefix.length = "0" ↔ line = "result=0" := by
  have hp : resultPrefix.data <+: line.data := by
    simpa [strings.HasPrefix] using h
  obtain ⟨t, ht⟩ := hp
  have hlen : resultPrefix.length = resultPrefix.data.length := rfl
  constructor
  · intro h0
    have h1 : line.data.drop resultPrefix.length = "0".data := by
      have := congrArg String.data h0
      simpa [sliceFrom] using this
    rw [← ht, hlen, List.drop_left] at h1
    apply String.ext
    rw [← ht, h1]
    rfl
  · intro h0
    subst h0
    decide

theorem agentArgs_set_last (c : Cli) (args : List String) (x ip : String) :
    (agentArgs c args x).set ((agentArgs c args x).length - 1) ip = agentArgs c args ip := by
  simp [agentArgs, List.set_append]

/-! ## `fmt.Errorf` without operands: the loop covers the whole format -/

namespace fmt

theorem skipFlags_bounds (format : List Char) (stop fuel : Nat) :
    ∀ i, i ≤ skipFlags format stop fuel i ∧ (i ≤ stop → skipFlags format stop fuel i ≤ stop) := by
  induction fuel with
  | zero => intro i; simp [skipFlags]
  | succ fuel ih =>
    intro i
    simp only [skipFlags]
    split
    · rename_i h
      have hlt : i < stop := by
        simp only [Bool.and_eq_true, decide_eq_true_eq] at h
        exact h.1
      obtain ⟨h1, h2⟩ := ih (i + 1)
      exact ⟨by omega, fun _ => h2 (by omega)⟩
    · exact ⟨le_refl _, fun h => h⟩

theorem parsenumLoop_bounds (s : List Char) (stop fuel : Nat) :
    ∀ newi num isnum, newi ≤ stop →
      newi ≤ (parsenumLoop s stop fuel newi num isnum).2.2 ∧
        (parsenumLoop s stop fuel newi num isnum).2.2 ≤ stop := by
  induction fuel with
  | zero => intro newi num isnum h; simp [parsenumLoop, h]
  | succ fuel ih =>
    intro newi num isnum h
    simp only [parsenumLoop]
    split
    · rename_i hc
      have hlt : newi < stop := by
        simp only [Bool.and_eq_true, decide_eq_true_eq] at hc
        exact hc.1.1
      split
      · exact ⟨h, le_refl _⟩
      · obtain ⟨h1, h2⟩ := ih (newi + 1) (num * 10 + ((s.getD newi ' ').toNat - 48)) true
          (by omega)
        exact ⟨by omega, h2⟩
    · exact ⟨le_refl _, h⟩

theorem parsenum_bounds (s : List Char) (start stop : Nat) (h : start ≤ stop) :
    start ≤ (parsenum s start stop).2.2 ∧ (parsenum s start stop).2.2 ≤ stop := by
  simp only [parsenum]
  split
  · exact ⟨h, le_refl _⟩
  · exact parsenumLoop_bounds s stop _ start 0 false h

theorem findClose_bounds (l : List Char) :
    ∀ i j, findClose l i = some j → i ≤ j ∧ j < i + l.length := by
  induction l with
  | nil => intro i j h; simp [findClose] at h
  | cons ch rest ih =>
    intro i j h
    simp only [findClose] at h
    split at h
    · simp only [Option.some.injEq] at h
      subst h
      simp
    · obtain ⟨h1, h2⟩ := ih (i + 1) j h
      simp only [List.length_cons]
      omega

theorem parseArgNumber_bounds (format : List Char) (h : format ≠ []) :
    1 ≤ (parseArgNumber format).2.1 ∧ (parseArgNumber format).2.1 ≤ format.length := by
  have hlen : 1 ≤ format.length := List.length_pos.mpr h
  simp only [parseArgNumber]
  split
  · exact ⟨le_refl _, hlen⟩
  · split
    · exact ⟨le_refl _, hlen⟩
    · rename_i i hfind
      obtain ⟨h1, h2⟩ := findClose_bounds _ _ _ hfind
      simp only [List.length_drop] at h2
      split <;> simp <;> omega

theorem argNumber_bounds (format : List Char) (st : VerbState) (h : st.i ≤ format.length) :
    st.i ≤ (argNumber format st).i ∧ (argNumber format st).i ≤ format.length := by
  simp only [argNumber]
  split
  · exact ⟨le_refl _, h⟩
  · rename_i hc
    simp only [Bool.or_eq_true, decide_eq_true_eq, not_or, not_le] at hc
    have hne : format.drop st.i ≠ [] := by
      intro hnil
      have := congrArg List.length hnil
      simp only [List.length_drop, List.length_nil] at this
      omega
    obtain ⟨h1, h2⟩ := parseArgNumber_bounds _ hne
    simp only [List.length_drop] at h2
    simp only
    omega

theorem widthStep_bounds (format : List Char) (st : VerbState) (h : st.i ≤ format.length) :
    st.i ≤ (widthStep format st).i ∧ (widthStep format st).i ≤ format.length := by
  simp only [widthStep]
  split
  · rename_i hc
    simp only [Bool.and_eq_true, decide_eq_true_eq] at hc
    simp only
    omega
  · exact parsenum_bounds format st.i format.length h

theorem precValue_bounds (format : List Char) (st : VerbState) (h : st.i ≤ format.length) :
    st.i ≤ (precValue format st).i ∧ (precValue format st).i ≤ format.length := by
  simp only [precValue]
  split
  · rename_i hc
    simp only [Bool.and_eq_true, decide_eq_true_eq] at hc
    simp only
    omega
  · exact parsenum_bounds format st.i format.length h

theorem precStep_bounds (format : List Char) (st : VerbState) (h : st.i ≤ format.length) :
    st.i ≤ (precStep format st).i ∧ (precStep format st).i ≤ format.length := by
  simp only [precStep]
  split
  · rename_i hc
    simp only [Bool.and_eq_true, decide_eq_true_eq] at hc
    obtain ⟨h1, h2⟩ := argNumber_bounds format
      { st with i := st.i + 1, goodArgNum := if st.afterIndex then false else st.goodArgNum }
      (by simp only; omega)
    obtain ⟨h3, h4⟩ := precValue_bounds format _ h2
    simp only at h1
    exact ⟨by omega, h4⟩
  · exact ⟨le_refl _, h⟩

theorem lastIndex_bounds (format : List Char) (st : VerbState) (h : st.i ≤ format.length) :
    st.i ≤ (lastIndex format st).i ∧ (lastIndex format st).i ≤ format.length := by
  simp only [lastIndex]
  split
  · exact argNumber_bounds format st h
  · exact ⟨le_refl _, h⟩

theorem writeVerb_bounds (format : List Char) (st : VerbState) (h : st.i ≤ format.length) :
    st.i ≤ (writeVerb format st).2 ∧ (writeVerb format st).2 ≤ format.length := by
  simp only [writeVerb]
  split
  · exact ⟨le_refl _, h⟩
  · rename_i hlt
    split
    · simp only; omega
    · split <;> (simp only; omega)

/-- A verb ends at or after the position it starts from, within the format. -/
theorem doVerb_bounds (format : List Char) (i : Nat) (h : i ≤ format.length) :
    i ≤ (doVerb format i).2 ∧ (doVerb format i).2 ≤ format.length := by
  obtain ⟨a1, a2⟩ := skipFlags_bounds format format.length (format.length - i) i
  have a2 := a2 h
  obtain ⟨b1, b2⟩ := argNumber_bounds format
    { i := skipFlags format format.length (format.length - i) i, afterIndex := false,
      goodArgNum := true, buf := [] } a2
  obtain ⟨c1, c2⟩ := widthStep_bounds format _ b2
  obtain ⟨d1, d2⟩ := precStep_bounds format _ c2
  obtain ⟨e1, e2⟩ := lastIndex_bounds format _ d2
  obtain ⟨f1, f2⟩ := writeVerb_bounds format _ e2
  simp only at b1
  simp only [doVerb]
  exact ⟨by omega, f2⟩

/-- The loop does not depend on the fuel once the fuel covers what is left of the format:
it never stops for lack of fuel. -/
theorem doPrintfLoop_fuel (format : List Char) (fuel : Nat) :
    ∀ (fuel2 i : Nat), format.length - i ≤ fuel → format.length - i ≤ fuel2 →
      doPrintfLoop format fuel i = doPrintfLoop format fuel2 i := by
  induction fuel with
  | zero =>
    intro fuel2 i h1 _
    cases fuel2 with
    | zero => rfl
    | succ fuel2 =>
      have : i ≥ format.length := by omega
      simp [doPrintfLoop, this]
  | succ fuel ih =>
    intro fuel2 i h1 h2
    cases fuel2 with
    | zero =>
      have : i ≥ format.length := by omega
      simp [doPrintfLoop, this]
    | succ fuel2 =>
      simp only [doPrintfLoop]
      split
      · rfl
      · rename_i hi
        split
        · rw [ih fuel2 (i + 1) (by omega) (by omega)]
        · obtain ⟨h3, h4⟩ := doVerb_bounds format (i + 1) (by omega)
          rw [ih fuel2 (doVerb format (i + 1)).2 (by omega) (by omega)]

/-- A format without `%` is written out unchanged. -/
theorem doPrintfLoop_of_no_percent (format : List Char) (h : '%' ∉ format) (fuel : Nat) :
    ∀ i, format.length - i ≤ fuel → doPrintfLoop format fuel i = format.drop i := by
  induction fuel with
  | zero =>
    intro i hi
    have : format.length ≤ i := by omega
    simp [doPrintfLoop, List.drop_eq_nil_of_le this]
  | succ fuel ih =>
    intro i hi
    simp only [doPrintfLoop]
    split
    · rename_i hge
      exact (List.drop_eq_nil_of_le hge).symm
    · rename_i hlt
      have hlt2 : i < format.length := by omega
      have hget : format.getD i ' ' = format[i] := by
        simp [List.getD, List.getElem?_eq_getElem hlt2]
      have hne : format.getD i ' ' ≠ '%' := by
        rw [hget]
        intro heq
        exact h (heq ▸ List.getElem_mem hlt2)
      simp only [hne, ne_eq, not_false_eq_true, if_true]
      rw [ih (i + 1) (by omega), hget]
      exact List.getElem_cons_drop _ _ hlt2

theorem Errorf_of_no_percent (format : String) (h : '%' ∉ format.data) :
    Errorf format = format := by
  simp only [Errorf]
  rw [doPrintfLoop_of_no_percent format.data h _ 0 (by omega)]
  rfl

end fmt

/-! ## The scan for the result line -/

theorem lastResultLine_cons (l : String) (t : List String) :
    lastResultLine (l :: t) =
      if strings.HasPrefix l resultPrefix then some ((lastResultLine t).getD l)
      else lastResultLine t := by
  by_cases h : strings.HasPrefix l resultPrefix = true
  · simp [lastResultLine, h, List.getLast?_cons]
  · simp [lastResultLine, h]

theorem lastResultLine_hasPrefix (lines : List String) (l : String)
    (h : lastResultLine lines = some l) : strings.HasPrefix l resultPrefix = true := by
  have hmem := List.mem_of_getLast?_eq_some h
  exact (List.mem_filter.mp hmem).2

theorem lastResultLine_eq_none_iff (lines : List String) :
    lastResultLine lines = none ↔ ∀ x ∈ lines, strings.HasPrefix x resultPrefix = false := by
  simp [lastResultLine, List.getLast?_eq_none_iff, List.filter_eq_nil_iff]

theorem scanResult_cons (result l : String) (t : List String) :
    scanResult result (l :: t) =
      scanResult
        (if strings.HasPrefix l resultPrefix then sliceFrom l resultPrefix.length else result) t :=
  rfl

theorem scanResult_append (result : String) (xs ys : List String) :
    scanResult result (xs ++ ys) = scanResult (scanResult result xs) ys := by
  simp [scanResult, List.foldl_append]

/-- The scan ends on the text after the prefix of the last result line, and leaves
`result` as it was when there is no result line. -/
theorem scanResult_eq (lines : List String) (result : String) :
    scanResult result lines =
      match lastResultLine lines with
      | some l => sliceFrom l resultPrefix.length
      | none => result := by
  induction lines generalizing result with
  | nil => rfl
  | cons l t ih =>
    rw [scanResult_cons, ih, lastResultLine_cons]
    by_cases hl : strings.HasPrefix l resultPrefix = true
    · cases ht : lastResultLine t <;> simp [hl]
    · simp [hl]

/-- Started on a code other than `0`, the scan ends on `0` exactly when the last result
line is `result=0`. -/
theorem scanResult_eq_zero_iff_of_ne (lines : List String) (result : String)
    (h : result ≠ "0") :
    scanResult result lines = "0" ↔ lastResultLine lines = some "result=0" := by
  rw [scanResult_eq]
  cases hl : lastResultLine lines with
  | none => simp [h]
  | some l =>
    simp only [Option.some.injEq]
    exact sliceFrom_eq_zero_iff l (lastResultLine_hasPrefix lines l hl)

/-- A result line after which no result line follows is the last result line. -/
theorem lastResultLine_of_last (pre post : List String) (l : String)
    (hl : strings.HasPrefix l resultPrefix = true)
    (hpost : ∀ x ∈ post, strings.HasPrefix x resultPrefix = false) :
    lastResultLine (pre ++ l :: post) = some l := by
  have hnil : post.filter (fun x => strings.HasPrefix x resultPrefix) = [] :=
    List.filter_eq_nil_iff.mpr (fun x hx => by simp [hpost x hx])
  simp [lastResultLine, List.filter_append, List.filter_cons, hl, hnil]

theorem hasPrefix_result_code (code : String) :
    strings.HasPrefix ("result=" ++ code) resultPrefix = true := by
  simp [strings.HasPrefix, resultPrefix]

theorem result_code_eq_zero_iff (code : String) :
    "result=" ++ code = "result=0" ↔ code = "0" := by
  constructor
  · intro h
    have h1 := congrArg String.data h
    have h2 : "result=0".data = "result=".data ++ "0".data := rfl
    rw [String.data_append, h2] at h1
    exact String.ext (List.append_cancel_left h1)
  · intro h
    rw [h]
    rfl

/-! ## The failover loop -/

/-- One round of the loop, with the argument slice and the emptiness test resolved. -/
theorem RunCmdLoop_cons (run : Executer) (c : Cli) (args : List String) (x ip : String)
    (rest : List String) (n : Nat) (result : String) (calls : List (List String)) :
    RunCmdLoop run (agentArgs c args x) (ip :: rest) n result calls =
      if scanResult result
          (strings.Split (strings.TrimSpace (run n (agentArgs c args ip))) (Char.ofNat 10)) = "0"
      then
        { ret := .ok (strings.Split (strings.TrimSpace (run n (agentArgs c args ip)))
            (Char.ofNat 10)).dropLast,
          calls := calls ++ [agentArgs c args ip] }
      else
        RunCmdLoop run (agentArgs c args ip) rest (n + 1)
          (scanResult result
            (strings.Split (strings.TrimSpace (run n (agentArgs c args ip))) (Char.ofNat 10)))
          (calls ++ [agentArgs c args ip]) := by
  rw [RunCmdLoop]
  simp only [agentArgs_set_last, Split_length_pos, gt_iff_lt, if_true, List.dropLast_eq_take]

/-- When no agent's last result line is `result=0`, the loop invokes every agent and fails
with the code the scan over all the outputs ends on. -/
theorem RunCmdLoop_fail (run : Executer) (c : Cli) (args : List String) (ips : List String) :
    ∀ (n : Nat) (result : String) (calls : List (List String)) (x : String),
      result ≠ "0" →
      (∀ ls ∈ agentLinesFrom run c args ips n, lastResultLine ls ≠ some "result=0") →
      RunCmdLoop run (agentArgs c args x) ips n result calls =
        { ret := .error (NewCliError (scanResult result (agentLinesFrom run c args ips n).flatten)),
          calls := calls ++ ips.map (agentArgs c args) } := by
  induction ips with
  | nil =>
    intro n result calls x _ _
    simp [RunCmdLoop, agentLinesFrom, scanResult]
  | cons ip rest ih =>
    intro n result calls x hres hall
    have hhead : lastResultLine
        (strings.Split (strings.TrimSpace (run n (agentArgs c args ip))) (Char.ofNat 10)) ≠
          some "result=0" :=
      hall _ (by simp [agentLinesFrom])
    have hscan := (scanResult_eq_zero_iff_of_ne _ result hres).not.mpr hhead
    rw [RunCmdLoop_cons, if_neg hscan, ih (n + 1) _ _ ip hscan
      (fun ls hls => hall ls (by simp [agentLinesFrom, hls]))]
    simp [agentLinesFrom, scanResult_append]

/-- When the agents before some agent do not succeed and that agent's last result line is
`result=0`, the loop stops there and returns its lines without the last one. -/
theorem RunCmdLoop_ok (run : Executer) (c : Cli) (args : List String) (ips : List String) :
    ∀ (n : Nat) (result : String) (calls : List (List String)) (x : String)
      (before : List (List String)) (ls : List String) (after : List (List String)),
      result ≠ "0" →
      agentLinesFrom run c args ips n = before ++ ls :: after →
      (∀ a ∈ before, lastResultLine a ≠ some "result=0") →
      lastResultLine ls = some "result=0" →
      RunCmdLoop run (agentArgs c args x) ips n result calls =
        { ret := .ok ls.dropLast,
          calls := calls ++ (ips.take (before.length + 1)).map (agentArgs c args) } := by
  induction ips with
  | nil =>
    intro n result calls x before ls after _ h
    simp [agentLinesFrom] at h
  | cons ip rest ih =>
    intro n result calls x before ls after hres h hbefore hls
    cases before with
    | nil =>
      simp only [agentLinesFrom, List.nil_append, List.cons.injEq] at h
      have hscan := (scanResult_eq_zero_iff_of_ne _ result hres).mpr (h.1 ▸ hls)
      rw [RunCmdLoop_cons, if_pos hscan, h.1]
      simp
    | cons a before =>
      simp only [agentLinesFrom, List.cons_append, List.cons.injEq] at h
      have hhead : lastResultLine
          (strings.Split (strings.TrimSpace (run n (agentArgs c args ip))) (Char.ofNat 10)) ≠
            some "result=0" :=
        h.1 ▸ hbefore a (List.mem_cons_self _ _)
      have hscan := (scanResult_eq_zero_iff_of_ne _ result hres).not.mpr hhead
      rw [RunCmdLoop_cons, if_neg hscan, ih (n + 1) _ _ ip before ls after hscan h.2
        (fun b hb => hbefore b (List.mem_cons_of_mem _ hb)) hls]
      simp

theorem RunCmd_eq_loop (run : Executer) (c : Cli) (args : List String) :
    RunCmd run c args = RunCmdLoop run (agentArgs c args "") c.fsaIp 0 "" [] :=
  rfl

theorem agentLinesFrom_length (run : Executer) (c : Cli) (args : List String)
    (ips : List String) : ∀ n, (agentLinesFrom run c args ips n).length = ips.length := by
  induction ips with
  | nil => intro n; rfl
  | cons ip rest ih => intro n; simp [agentLinesFrom, ih]

/-- A list in which some entry satisfies `p` splits at the first such entry. -/
theorem exists_first_split {α : Type} (p : α → Prop) (l : List α) (h : ∃ a ∈ l, p a) :
    ∃ before a after, l = before ++ a :: after ∧ (∀ b ∈ before, ¬ p b) ∧ p a := by
  induction l with
  | nil => simp at h
  | cons x xs ih =>
    by_cases hx : p x
    · exact ⟨[], x, xs, rfl, by simp, hx⟩
    · have h2 : ∃ a ∈ xs, p a := by
        obtain ⟨a, ha, hpa⟩ := h
        rcases List.mem_cons.mp ha with rfl | ha
        · exact absurd hpa hx
        · exact ⟨a, ha, hpa⟩
      obtain ⟨before, a, after, hl, hb, hpa⟩ := ih h2
      refine ⟨x :: before, a, after, by simp [hl], ?_, hpa⟩
      intro b hb2
      rcases List.mem_cons.mp hb2 with rfl | hb2
      · exact hx
      · exact hb b hb2

theorem agentLinesFrom_getElem? (run : Executer) (c : Cli) (args : List String)
    (ips : List String) : ∀ (n i : Nat),
      (agentLinesFrom run c args ips n)[i]? =
        (ips[i]?).map (fun ip =>
          strings.Split (strings.TrimSpace (run (n + i) (agentArgs c args ip))) (Char.ofNat 10)) := by
  induction ips with
  | nil => intro n i; simp [agentLinesFrom]
  | cons ip rest ih =>
    intro n i
    cases i with
    | zero => simp [agentLinesFrom]
    | succ i =>
      simp only [agentLinesFrom, List.getElem?_cons_succ, ih]
      have : n + 1 + i = n + (i + 1) := by omega
      rw [this]

/-- A list splits at any of its positions. -/
theorem split_at_getElem? {α : Type} (l : List α) (k : Nat) (a : α) (h : l[k]? = some a) :
    l = l.take k ++ a :: l.drop (k + 1) ∧ (l.take k).length = k ∧
      ∀ b ∈ l.take k, ∃ j, j < k ∧ l[j]? = some b := by
  obtain ⟨hk, ha⟩ := List.getElem?_eq_some_iff.mp h
  refine ⟨?_, ?_, ?_⟩
  · rw [← ha, List.getElem_cons_drop, List.take_append_drop]
  · simp [List.length_take]; omega
  · intro b hb
    obtain ⟨j, hj, hjb⟩ := List.getElem_of_mem hb
    have hjk : j < k := by
      have := List.length_take_le k l
      omega
    refine ⟨j, hjk, ?_⟩
    rw [← hjb, List.getElem_take]
    exact List.getElem?_eq_getElem _

/-- The scan over all the outputs ends on the code the specification describes. -/
theorem scanResult_flatten (outputs : List (List String)) :
    scanResult "" outputs.flatten = specLastObservedCode outputs.reverse := by
  induction outputs using List.reverseRecOn with
  | nil => rfl
  | append_singleton init last ih =>
    rw [List.flatten_append, scanResult_append, ih]
    simp only [List.flatten_cons, List.flatten_nil, List.append_nil, List.reverse_append,
      List.reverse_cons, List.reverse_nil, List.nil_append, List.cons_append,
      specLastObservedCode]
    rw [scanResult_eq]

/-! ## FailoverCommandRunner: the claims -/

/-- C1: `RunCmd` returns a payload (nil error) if and only if some agent's own output,
trimmed and split on newlines, has a line starting with `result=` and the last such line is
exactly `result=0`; an output with an earlier `result=0` and a later last result line with
another code does not count, an output with an earlier result line of any code and a final
`result=0` does. -/
theorem RunCmd_ok_iff (run : Executer) (c : Cli) (args : List String) :
    ((∃ payload, (RunCmd run c args).ret = .ok payload) ↔
        ∃ ls ∈ agentLines run c args, lastResultLine ls = some "result=0") ∧
      (∀ (pre mid post : List String) (code : String), code ≠ "0" →
        (∀ l ∈ post, strings.HasPrefix l resultPrefix = false) →
        lastResultLine (pre ++ "result=0" :: (mid ++ ("result=" ++ code) :: post)) ≠
          some "result=0") ∧
      (∀ (pre mid post : List String) (code : String),
        (∀ l ∈ post, strings.HasPrefix l resultPrefix = false) →
        lastResultLine (pre ++ ("result=" ++ code) :: (mid ++ "result=0" :: post)) =
          some "result=0") := by
  refine ⟨⟨?_, ?_⟩, ?_, ?_⟩
  · rintro ⟨payload, h⟩
    by_contra hno
    push_neg at hno
    rw [RunCmd_eq_loop, RunCmdLoop_fail run c args c.fsaIp 0 "" [] "" (by decide) hno] at h
    simp at h
  · intro h
    obtain ⟨before, ls, after, hsplit, hbefore, hls⟩ :=
      exists_first_split (fun ls => lastResultLine ls = some "result=0") _ h
    refine ⟨ls.dropLast, ?_⟩
    rw [RunCmd_eq_loop,
      RunCmdLoop_ok run c args c.fsaIp 0 "" [] "" before ls after (by decide) hsplit hbefore hls]
  · intro pre mid post code hcode hpost
    have h := lastResultLine_of_last (pre ++ "result=0" :: mid) post ("result=" ++ code)
      (hasPrefix_result_code code) hpost
    rw [List.append_assoc, List.cons_append] at h
    rw [h]
    intro heq
    exact hcode ((result_code_eq_zero_iff code).mp (Option.some.inj heq))
  · intro pre mid post code hpost
    have h := lastResultLine_of_last (pre ++ ("result=" ++ code) :: mid) post "result=0"
      hasPrefix_result_zero hpost
    rw [List.append_assoc, List.cons_append] at h
    exact h

/-- C1 on sample data: the second agent's earlier `result=0` followed by a later failing
result line is not a success, the third agent's failing line followed by a final `result=0`
is, and a sweep without any such agent fails. -/
theorem RunCmd_ok_iff_witness :
    lastResultLine ["result=0", "result=50150005"] ≠ some "result=0" ∧
      lastResultLine ["pool=3", "result=50150004", "result=0"] = some "result=0" ∧
      (∃ payload, (RunCmd sampleRun sampleCli ["--op", "queryIscsiPortalInfo"]).ret
        = .ok payload) ∧
      ¬ ∃ payload, (RunCmd failingRun sampleCli ["--op", "queryIscsiPortalInfo"]).ret
        = .ok payload :=
  ⟨by decide, by decide,
    (RunCmd_ok_iff sampleRun sampleCli ["--op", "queryIscsiPortalInfo"]).1.mpr
      ⟨["pool=3", "result=50150004", "result=0"], by decide, by decide⟩,
    fun h => by
      have h2 := (RunCmd_ok_iff failingRun sampleCli ["--op", "queryIscsiPortalInfo"]).1.mp h
      revert h2
      decide⟩

/-- C2: when the agent at position `k` (counted from 0) is the first whose output's last
result line is `result=0`, `RunCmd` invokes the executer exactly `k + 1` times, for the
first `k + 1` agents in list order and for no later agent, each time with the base arguments
followed by `--manage_ip`, the coordinator address, `--ip` and that agent's address; when no
agent succeeds it invokes the executer once per agent, in list order. -/
theorem RunCmd_calls (run : Executer) (c : Cli) (args : List String) :
    (∀ (k : Nat) (ls : List String),
        (agentLines run c args)[k]? = some ls →
        lastResultLine ls = some "result=0" →
        (∀ (j : Nat) (ls' : List String), j < k → (agentLines run c args)[j]? = some ls' →
          lastResultLine ls' ≠ some "result=0") →
        (RunCmd run c args).calls =
            (c.fsaIp.take (k + 1)).map
              (fun ip => args ++ ["--manage_ip", c.fmIp, "--ip", ip]) ∧
          (RunCmd run c args).calls.length = k + 1) ∧
      ((∀ ls ∈ agentLines run c args, lastResultLine ls ≠ some "result=0") →
        (RunCmd run c args).calls =
            c.fsaIp.map (fun ip => args ++ ["--manage_ip", c.fmIp, "--ip", ip]) ∧
          (RunCmd run c args).calls.length = c.fsaIp.length) := by
  constructor
  · intro k ls hk hls hfirst
    obtain ⟨hsplit, hlen, hmem⟩ := split_at_getElem? _ k ls hk
    have hbefore : ∀ a ∈ (agentLines run c args).take k, lastResultLine a ≠ some "result=0" := by
      intro a ha
      obtain ⟨j, hj, hja⟩ := hmem a ha
      exact hfirst j a hj hja
    have hcalls : (RunCmd run c args).calls =
        (c.fsaIp.take (k + 1)).map (agentArgs c args) := by
      rw [RunCmd_eq_loop, RunCmdLoop_ok run c args c.fsaIp 0 "" [] "" _ ls _ (by decide)
        hsplit hbefore hls, hlen]
      simp
    have hkN : k < c.fsaIp.length := by
      have h1 := (List.getElem?_eq_some_iff.mp hk).1
      have h2 : (agentLines run c args).length = c.fsaIp.length :=
        agentLinesFrom_length run c args c.fsaIp 0
      omega
    refine ⟨hcalls, ?_⟩
    rw [hcalls, List.length_map, List.length_take]
    omega
  · intro hno
    have hcalls : (RunCmd run c args).calls = c.fsaIp.map (agentArgs c args) := by
      rw [RunCmd_eq_loop, RunCmdLoop_fail run c args c.fsaIp 0 "" [] "" (by decide) hno]
      simp
    refine ⟨hcalls, ?_⟩
    rw [hcalls, List.length_map]

/-- C2 on sample data: the third agent is the first to succeed and the executer is invoked
three times, once for each agent in order; with no successful agent it is invoked once per
agent. -/
theorem RunCmd_calls_witness :
    (RunCmd sampleRun sampleCli ["--op", "queryIscsiPortalInfo"]).calls =
        [ ["--op", "queryIscsiPortalInfo", "--manage_ip", "10.0.0.1", "--ip", "10.0.0.2"],
          ["--op", "queryIscsiPortalInfo", "--manage_ip", "10.0.0.1", "--ip", "10.0.0.3"],
          ["--op", "queryIscsiPortalInfo", "--manage_ip", "10.0.0.1", "--ip", "10.0.0.4"] ] ∧
      (RunCmd failingRun sampleCli ["--op", "queryIscsiPortalInfo"]).calls.length = 3 :=
  ⟨((RunCmd_calls sampleRun sampleCli ["--op", "queryIscsiPortalInfo"]).1 2
      ["pool=3", "result=50150004", "result=0"] (by decide) (by decide)
      (by
        intro j ls' hj
        have hj2 : j = 0 ∨ j = 1 := by omega
        rcases hj2 with rfl | rfl
        · intro h1
          have h2 : ls' = ["busy", "result=50150016"] := by
            have h3 : (agentLines sampleRun sampleCli ["--op", "queryIscsiPortalInfo"])[0]? =
                some ["busy", "result=50150016"] := by decide
            rw [h3] at h1
            exact (Option.some.inj h1).symm
          subst h2
          decide
        · intro h1
          have h2 : ls' = ["result=0", "result=50150005"] := by
            have h3 : (agentLines sampleRun sampleCli ["--op", "queryIscsiPortalInfo"])[1]? =
                some ["result=0", "result=50150005"] := by decide
            rw [h3] at h1
            exact (Option.some.inj h1).symm
          subst h2
          decide)).1,
    ((RunCmd_calls failingRun sampleCli ["--op", "queryIscsiPortalInfo"]).2
      (by decide)).2⟩

/-- The two ways a sweep ends: at the first agent whose last result line is `result=0`,
with that agent's lines but the last, or after every agent, with the error for the code the
scan ends on. -/
theorem RunCmd_cases (run : Executer) (c : Cli) (args : List String) :
    (∃ before ls after, agentLines run c args = before ++ ls :: after ∧
        (∀ a ∈ before, lastResultLine a ≠ some "result=0") ∧
        lastResultLine ls = some "result=0" ∧
        (RunCmd run c args).ret = .ok ls.dropLast) ∨
      ((∀ ls ∈ agentLines run c args, lastResultLine ls ≠ some "result=0") ∧
        (RunCmd run c args).ret =
          .error (NewCliError (specLastObservedCode (agentLines run c args).reverse))) := by
  by_cases h : ∃ ls ∈ agentLines run c args, lastResultLine ls = some "result=0"
  · left
    obtain ⟨before, ls, after, hsplit, hbefore, hls⟩ :=
      exists_first_split (fun ls => lastResultLine ls = some "result=0") _ h
    refine ⟨before, ls, after, hsplit, hbefore, hls, ?_⟩
    rw [RunCmd_eq_loop,
      RunCmdLoop_ok run c args c.fsaIp 0 "" [] "" before ls after (by decide) hsplit hbefore hls]
  · right
    push_neg at h
    refine ⟨h, ?_⟩
    rw [RunCmd_eq_loop, RunCmdLoop_fail run c args c.fsaIp 0 "" [] "" (by decide) h]
    simp only
    rw [← scanResult_flatten]
    rfl

theorem specLastObservedCode_of_none (outputs : List (List String))
    (h : ∀ ls ∈ outputs, lastResultLine ls = none) : specLastObservedCode outputs = "" := by
  induction outputs with
  | nil => rfl
  | cons last earlier ih =>
    simp only [specLastObservedCode, h last (List.mem_cons_self _ _)]
    exact ih (fun ls hls => h ls (List.mem_cons_of_mem _ hls))

/-- C3, as the code has it: when the output of the first agent whose last result line is
`result=0` ends with that line, the payload `RunCmd` returns is exactly the lines before the
result line: the result line is left out and no line before it is lost. -/
theorem RunCmd_payload (run : Executer) (c : Cli) (args : List String)
    (before : List (List String)) (payload : List String) (after : List (List String))
    (hsplit : agentLines run c args = before ++ (payload ++ ["result=0"]) :: after)
    (hbefore : ∀ a ∈ before, lastResultLine a ≠ some "result=0") :
    (RunCmd run c args).ret = .ok payload := by
  have hls : lastResultLine (payload ++ ["result=0"]) = some "result=0" := by
    simp [lastResultLine, List.filter_append, hasPrefix_result_zero]
  rw [RunCmd_eq_loop,
    RunCmdLoop_ok run c args c.fsaIp 0 "" [] "" before _ after (by decide) hsplit hbefore hls]
  simp

/-- C3 on sample data: the third agent's output ends with `result=0` and the payload is
the two lines before it. -/
theorem RunCmd_payload_witness :
    (RunCmd sampleRun sampleCli ["--op", "queryIscsiPortalInfo"]).ret =
      .ok ["pool=3", "result=50150004"] :=
  RunCmd_payload sampleRun sampleCli ["--op", "queryIscsiPortalInfo"]
    [["busy", "result=50150016"], ["result=0", "result=50150005"]]
    ["pool=3", "result=50150004"] [] (by decide) (by decide)

/-- C3 as stated fails: for the one-agent output `result=0`, `portal=10.0.0.9` the last
result line is `result=0`, the lines before it are none and the line after it is a payload
line, yet the payload returned is the result line itself and the payload line is lost. -/
theorem RunCmd_payload_counterexample :
    agentLines leadingResultRun oneAgentCli ["--op", "queryIscsiPortalInfo"] =
        [["result=0", "portal=10.0.0.9"]] ∧
      lastResultLine ["result=0", "portal=10.0.0.9"] = some "result=0" ∧
      (RunCmd leadingResultRun oneAgentCli ["--op", "queryIscsiPortalInfo"]).ret =
        .ok ["result=0"] ∧
      (RunCmd leadingResultRun oneAgentCli ["--op", "queryIscsiPortalInfo"]).ret ≠ .ok [] ∧
      (RunCmd leadingResultRun oneAgentCli ["--op", "queryIscsiPortalInfo"]).ret ≠
        .ok ["portal=10.0.0.9"] := by
  refine ⟨by decide, by decide, rfl, ?_, ?_⟩
  · intro h
    have h2 : (RunCmd leadingResultRun oneAgentCli ["--op", "queryIscsiPortalInfo"]).ret =
        .ok ["result=0"] := rfl
    rw [h2] at h
    exact absurd (Except.ok.inj h) (by decide)
  · intro h
    have h2 : (RunCmd leadingResultRun oneAgentCli ["--op", "queryIscsiPortalInfo"]).ret =
        .ok ["result=0"] := rfl
    rw [h2] at h
    exact absurd (Except.ok.inj h) (by decide)

/-- C4: when no agent's last result line is `result=0`, `RunCmd` returns no payload and the
error `NewCliError(c)`, where `c` is the text after `result=` on the last result line of the
last agent's output, or, when that agent printed no result line, the code most recently
observed from an earlier agent; when no agent printed a result line `c` is the empty string
and the message is `CLI execute error`. -/
theorem RunCmd_error (run : Executer) (c : Cli) (args : List String)
    (h : ∀ ls ∈ agentLines run c args, lastResultLine ls ≠ some "result=0") :
    (RunCmd run c args).ret =
        .error (NewCliError (specLastObservedCode (agentLines run c args).reverse)) ∧
      ((∀ ls ∈ agentLines run c args, lastResultLine ls = none) →
        specLastObservedCode (agentLines run c args).reverse = "" ∧
          (RunCmd run c args).ret = .error { Msg := "CLI execute error", Code := "" }) := by
  rcases RunCmd_cases run c args with ⟨before, ls, after, hsplit, _, hls, _⟩ | ⟨_, hret⟩
  · exact absurd hls (h ls (by rw [hsplit]; simp))
  · refine ⟨hret, ?_⟩
    intro hnone
    have hcode : specLastObservedCode (agentLines run c args).reverse = "" :=
      specLastObservedCode_of_none _ (fun ls hls => hnone ls (List.mem_reverse.mp hls))
    refine ⟨hcode, ?_⟩
    rw [hret, hcode]
    rfl

/-- C4 on sample data: the third agent prints no result line, so the code is the second
agent's `50150005`; agents that print no result line at all give the empty code. -/
theorem RunCmd_error_witness :
    (RunCmd failingRun sampleCli ["--op", "queryIscsiPortalInfo"]).ret =
        .error { Msg := "Volume does not exist", Code := "50150005" } ∧
      (RunCmd silentRun sampleCli ["--op", "queryIscsiPortalInfo"]).ret =
        .error { Msg := "CLI execute error", Code := "" } :=
  ⟨(RunCmd_error failingRun sampleCli ["--op", "queryIscsiPortalInfo"] (by decide)).1.trans rfl,
    ((RunCmd_error silentRun sampleCli ["--op", "queryIscsiPortalInfo"] (by decide)).2
      (by decide)).2⟩

/-! ## ErrorTranslator: the claim -/

theorem CliErrorMap_lookup_of_mem :
    ∀ entry ∈ CliErrorMap, CliErrorMap.lookup entry.1 = some entry.2 := by
  decide

theorem lookup_eq_none_of_not_mem (m : List (String × String)) (code : String)
    (h : code ∉ m.map Prod.fst) : m.lookup code = none := by
  induction m with
  | nil => rfl
  | cons entry rest ih =>
    obtain ⟨k, v⟩ := entry
    simp only [List.map_cons, List.mem_cons, not_or] at h
    have hbeq : (code == k) = false := by simpa using h.1
    simp only [List.lookup, hbeq]
    exact ih h.2

/-- C5: for a code that is a key of `CliErrorMap`, `NewCliError(code)` carries exactly the
message mapped to that key and the code; for a code that is not a key, the empty string
included, it carries exactly `CLI execute error` and the code unchanged. -/
theorem NewCliError_spec (code : String) :
    (∀ msg, (code, msg) ∈ CliErrorMap → NewCliError code = { Msg := msg, Code := code }) ∧
      (code ∉ CliErrorMap.map Prod.fst →
        NewCliError code = { Msg := "CLI execute error", Code := code }) ∧
      NewCliError "" = { Msg := "CLI execute error", Code := "" } := by
  refine ⟨?_, ?_, rfl⟩
  · intro msg hmem
    have h := CliErrorMap_lookup_of_mem (code, msg) hmem
    simp only at h
    simp [NewCliError, h, NewCliErrorBase]
  · intro hno
    simp [NewCliError, lookup_eq_none_of_not_mem CliErrorMap code hno, NewCliErrorBase]

/-- C5 on sample codes: a known code, an unknown code and the empty code. -/
theorem NewCliError_spec_witness :
    NewCliError "50150016" = { Msg := "VBS handle queue busy", Code := "50150016" } ∧
      NewCliError "42" = { Msg := "CLI execute error", Code := "42" } ∧
      NewCliError "" = { Msg := "CLI execute error", Code := "" } :=
  ⟨(NewCliError_spec "50150016").1 "VBS handle queue busy" (by decide),
    (NewCliError_spec "42").2.1 (by decide),
    (NewCliError_spec "").2.2⟩

/-! ## SessionClient: the response handling -/

/-- What `request` returns once a response has been read. -/
theorem request_of_receives {Params : Type} (env : Env Params) (c : Cli) (url method : String)
    (isGetVersion : Bool) (reqParams : Option Params) (resp : Response)
    (respContent : String)
    (hrecv : Receives env c url method isGetVersion reqParams resp respContent) :
    ∃ body, marshalBody env reqParams = .ok body ∧
      (request env c url method isGetVersion reqParams).sent =
        [buildRequest env c url method isGetVersion body] ∧
      (request env c url method isGetVersion reqParams).ret =
        (if 400 ≤ resp.StatusCode ∧ resp.StatusCode ≤ 599 then
          .err (statusError env resp.StatusCode respContent
            (callUrl env.BasicURI c url isGetVersion))
        else
          match env.Unmarshal respContent with
          | .error err => .err err
          | .ok none => .panic
          | .ok (some respResult) =>
            if respResult.RespCode ≠ 0 then .err (fmt.Errorf respContent)
            else .ok respContent) ∧
      (request env c url method isGetVersion reqParams).cli =
        (if 400 ≤ resp.StatusCode ∧ resp.StatusCode ≤ 599 then c
        else
          match env.Unmarshal respContent with
          | .error _ => c
          | .ok none => c
          | .ok (some respResult) =>
            if respResult.RespCode ≠ 0 then c else captureToken c resp.Header) := by
  obtain ⟨body, hm, hn, hd, hb⟩ := hrecv
  refine ⟨body, hm, ?_, ?_, ?_⟩
  all_goals
    simp only [request, hm, hn, hd, hb]
    split_ifs <;> (try rfl)
    all_goals
      rcases hu : env.Unmarshal respContent with err | ptr
      · rfl
      · cases ptr with
        | none => rfl
        | some r => simp only []; split_ifs <;> rfl

theorem lookup_mapSet_self (m : List (String × String)) (k v : String) :
    (mapSet m k v).lookup k = some v := by
  simp [mapSet, List.lookup]

theorem lookup_filter_ne (m : List (String × String)) (k k2 : String) (h : k2 ≠ k) :
    (m.filter (fun entry => entry.1 != k)).lookup k2 = m.lookup k2 := by
  induction m with
  | nil => rfl
  | cons entry rest ih =>
    obtain ⟨a, b⟩ := entry
    by_cases ha : a = k
    · subst ha
      have h1 : (k2 == a) = false := by simpa using h
      simp [List.filter, List.lookup, h1, ih]
    · have h2 : (a != k) = true := by simpa using ha
      simp only [List.filter, h2, List.lookup]
      cases (k2 == a) <;> simp [ih]

theorem lookup_mapSet_ne (m : List (String × String)) (k v k2 : String) (h : k2 ≠ k) :
    (mapSet m k v).lookup k2 = m.lookup k2 := by
  have h1 : (k2 == k) = false := by simpa using h
  simp only [mapSet, List.lookup, h1]
  exact lookup_filter_ne m k k2 h

theorem filter_mapSet_self (m : List (String × String)) (k v : String) :
    (mapSet m k v).filter (fun entry => entry.1 == k) = [(k, v)] := by
  simp only [mapSet, List.filter, beq_self_eq_true, List.cons.injEq, true_and]
  rw [List.filter_filter, List.filter_eq_nil_iff]
  intro entry _
  by_cases h : entry.1 = k <;> simp [h]

theorem sampleEnv_receives (c : Cli) (url method : String) (isGetVersion : Bool)
    (status : Int) (header : Option (List (String × List String))) (content : String)
    (decoded : Except String (Option responseResult)) :
    Receives (sampleEnv (sampleResponse status header content) decoded) c url method
      isGetVersion none (sampleResponse status header content) content :=
  ⟨"", rfl, rfl, rfl, rfl⟩

/-! ## SessionClient: the claims -/

/-- For a response outside 400..599 whose envelope carries a non-zero code, the error
message is the body run through `fmt.Errorf` as a format string. -/
theorem request_envelope_error {Params : Type} (env : Env Params) (c : Cli)
    (url method : String) (isGetVersion : Bool) (reqParams : Option Params) (resp : Response)
    (respContent : String) (respResult : responseResult)
    (hrecv : Receives env c url method isGetVersion reqParams resp respContent)
    (hstatus : ¬ (400 ≤ resp.StatusCode ∧ resp.StatusCode ≤ 599))
    (hdecode : env.Unmarshal respContent = .ok (some respResult))
    (hcode : respResult.RespCode ≠ 0) :
    (request env c url method isGetVersion reqParams).ret = .err (fmt.Errorf respContent) ∧
      (request env c url method isGetVersion reqParams).cli = c := by
  obtain ⟨_, _, _, hret, hcli⟩ :=
    request_of_receives env c url method isGetVersion reqParams resp respContent hrecv
  rw [hret, hcli]
  simp [hstatus, hdecode, hcode]

/-- For a body without `%` the envelope error message is the body itself. -/
theorem request_envelope_error_of_no_percent {Params : Type} (env : Env Params) (c : Cli)
    (url method : String) (isGetVersion : Bool) (reqParams : Option Params) (resp : Response)
    (respContent : String) (respResult : responseResult)
    (hrecv : Receives env c url method isGetVersion reqParams resp respContent)
    (hstatus : ¬ (400 ≤ resp.StatusCode ∧ resp.StatusCode ≤ 599))
    (hdecode : env.Unmarshal respContent = .ok (some respResult))
    (hcode : respResult.RespCode ≠ 0) (hpercent : '%' ∉ respContent.data) :
    (request env c url method isGetVersion reqParams).ret = .err respContent := by
  rw [(request_envelope_error env c url method isGetVersion reqParams resp respContent
    respResult hrecv hstatus hdecode hcode).1, fmt.Errorf_of_no_percent respContent hpercent]

/-- C6 at a failing input: for status 200 and the envelope body `percentBody` (code 1), the
error message `request` returns is not the body: the `%"` of the body comes out as
`%!"(MISSING)`. -/
theorem request_envelope_error_percent :
    (request (sampleEnv (sampleResponse 200 none percentBody) (.ok (some { RespCode := 1 })))
        sampleCli "/volume/create" "POST" false none).ret =
        .err "\x7b\"result\":1,\"description\":\"pool usage 100%!\"(MISSING)\x7d" ∧
      (request (sampleEnv (sampleResponse 200 none percentBody) (.ok (some { RespCode := 1 })))
        sampleCli "/volume/create" "POST" false none).ret ≠ .err percentBody := by
  constructor
  · decide
  · decide

/-- C7, as the code has it: for a response outside 400..599, a body on which
`json.Unmarshal` reports an error makes `request` return that error, but a body on which
`json.Unmarshal` succeeds and leaves the `*responseResult` nil (the JSON literal `null`)
makes `request` panic on `respResult.RespCode` instead of returning. -/
theorem request_decode {Params : Type} (env : Env Params) (c : Cli)
    (url method : String) (isGetVersion : Bool) (reqParams : Option Params) (resp : Response)
    (respContent : String)
    (hrecv : Receives env c url method isGetVersion reqParams resp respContent)
    (hstatus : ¬ (400 ≤ resp.StatusCode ∧ resp.StatusCode ≤ 599)) :
    (∀ err, env.Unmarshal respContent = .error err →
        (request env c url method isGetVersion reqParams).ret = .err err) ∧
      (env.Unmarshal respContent = .ok none →
        (request env c url method isGetVersion reqParams).ret = .panic) := by
  obtain ⟨_, _, _, hret, _⟩ :=
    request_of_receives env c url method isGetVersion reqParams resp respContent hrecv
  rw [hret]
  constructor
  · intro err hdecode
    simp [hstatus, hdecode]
  · intro hdecode
    simp [hstatus, hdecode]

/-- C7 on sample data: status 200 with the body `null`, which the decoder accepts leaving a
nil pointer. -/
theorem request_decode_witness :
    (request (sampleEnv (sampleResponse 200 none "null") (.ok none))
      sampleCli "/storagePool" "GET" false none).ret = .panic :=
  (request_decode (sampleEnv (sampleResponse 200 none "null") (.ok none))
    sampleCli "/storagePool" "GET" false none (sampleResponse 200 none "null") "null"
    (sampleEnv_receives _ _ _ _ _ _ _ _) (by decide)).2 rfl

/-- C8: a response whose status is in 400..599 makes `request` return no body and the
status error whatever the body is, the same for every JSON decoder (the status is checked
before the body is decoded); at the statuses 399 and 600 the status check passes, so an
envelope with code 0 is returned as a success. -/
theorem request_status {Params : Type} (env : Env Params) (c : Cli)
    (url method : String) (isGetVersion : Bool) (reqParams : Option Params) (resp : Response)
    (respContent : String)
    (hrecv : Receives env c url method isGetVersion reqParams resp respContent) :
    ((400 ≤ resp.StatusCode ∧ resp.StatusCode ≤ 599) →
        ∀ decoder : String → Except String (Option responseResult),
          (request { env with Unmarshal := decoder } c url method isGetVersion reqParams).ret =
              .err (statusError env resp.StatusCode respContent
                (callUrl env.BasicURI c url isGetVersion)) ∧
            (request { env with Unmarshal := decoder } c url method isGetVersion reqParams).cli
              = c) ∧
      ((resp.StatusCode = 399 ∨ resp.StatusCode = 600) →
        ∀ respResult, env.Unmarshal respContent = .ok (some respResult) →
          respResult.RespCode = 0 →
          (request env c url method isGetVersion reqParams).ret = .ok respContent) := by
  constructor
  · intro hstatus decoder
    have hrecv2 : Receives { env with Unmarshal := decoder } c url method isGetVersion
        reqParams resp respContent := hrecv
    obtain ⟨_, _, _, hret, hcli⟩ :=
      request_of_receives _ c url method isGetVersion reqParams resp respContent hrecv2
    rw [hret, hcli, if_pos hstatus, if_pos hstatus]
    exact ⟨rfl, rfl⟩
  · intro hstatus respResult hdecode hcode
    obtain ⟨_, _, _, hret, _⟩ :=
      request_of_receives env c url method isGetVersion reqParams resp respContent hrecv
    have hout : ¬ (400 ≤ resp.StatusCode ∧ resp.StatusCode ≤ 599) := by
      rcases hstatus with h | h <;> rw [h] <;> decide
    rw [hret]
    simp [hout, hdecode, hcode]

/-- C8 on sample data: status 500 with a well-formed envelope of code 0 fails with the
status error; so does status 400 with a body the decoder rejects; statuses 399 and 600 with
an envelope of code 0 succeed. -/
theorem request_status_witness :
    (request (sampleEnv (sampleResponse 500 none "\x7b\"result\":0\x7d")
        (.ok (some { RespCode := 0 }))) sampleCli "/storagePool" "GET" false none).ret =
        .err ("return status code is: 500, return content is: \x7b\"result\":0\x7d, " ++
          "error function is: fusionstorage.(*Cli).createVolume, error line is: 164, " ++
          "url is https://fm:28443/dsware/service/v3/storagePool") ∧
      (request (sampleEnv (sampleResponse 400 none "<html>") (.error "invalid character"))
        sampleCli "/storagePool" "GET" false none).ret =
        .err ("return status code is: 400, return content is: <html>, " ++
          "error function is: fusionstorage.(*Cli).createVolume, error line is: 164, " ++
          "url is https://fm:28443/dsware/service/v3/storagePool") ∧
      (request (sampleEnv (sampleResponse 399 none "\x7b\"result\":0\x7d")
        (.ok (some { RespCode := 0 }))) sampleCli "/storagePool" "GET" false none).ret =
        .ok "\x7b\"result\":0\x7d" ∧
      (request (sampleEnv (sampleResponse 600 none "\x7b\"result\":0\x7d")
        (.ok (some { RespCode := 0 }))) sampleCli "/storagePool" "GET" false none).ret =
        .ok "\x7b\"result\":0\x7d" :=
  ⟨(((request_status (sampleEnv (sampleResponse 500 none "\x7b\"result\":0\x7d")
        (.ok (some { RespCode := 0 }))) sampleCli "/storagePool" "GET" false none
        (sampleResponse 500 none "\x7b\"result\":0\x7d") "\x7b\"result\":0\x7d"
        (sampleEnv_receives _ _ _ _ _ _ _ _)).1 (by decide)
        (fun _ => .ok (some { RespCode := 0 }))).1).trans rfl,
    (((request_status (sampleEnv (sampleResponse 400 none "<html>") (.error "invalid character"))
        sampleCli "/storagePool" "GET" false none
        (sampleResponse 400 none "<html>") "<html>"
        (sampleEnv_receives _ _ _ _ _ _ _ _)).1 (by decide)
        (fun _ => .error "invalid character")).1).trans rfl,
    (request_status (sampleEnv (sampleResponse 399 none "\x7b\"result\":0\x7d")
        (.ok (some { RespCode := 0 }))) sampleCli "/storagePool" "GET" false none
        (sampleResponse 399 none "\x7b\"result\":0\x7d") "\x7b\"result\":0\x7d"
        (sampleEnv_receives _ _ _ _ _ _ _ _)).2 (Or.inl rfl) { RespCode := 0 } rfl rfl,
    (request_status (sampleEnv (sampleResponse 600 none "\x7b\"result\":0\x7d")
        (.ok (some { RespCode := 0 }))) sampleCli "/storagePool" "GET" false none
        (sampleResponse 600 none "\x7b\"result\":0\x7d") "\x7b\"result\":0\x7d"
        (sampleEnv_receives _ _ _ _ _ _ _ _)).2 (Or.inr rfl) { RespCode := 0 } rfl rfl⟩

/-- Once the parameters marshal and `http.NewRequest` accepts the request, `request` hands
exactly one request to `client.Do`: the one `buildRequest` describes. -/
theorem request_sent {Params : Type} (env : Env Params) (c : Cli) (url method : String)
    (isGetVersion : Bool) (reqParams : Option Params) (body : String)
    (hmarshal : marshalBody env reqParams = .ok body)
    (hnew : env.NewRequest (env.ToUpper method) (callUrl env.BasicURI c url isGetVersion) body
      = none) :
    (request env c url method isGetVersion reqParams).sent =
      [buildRequest env c url method isGetVersion body] := by
  simp only [request, hmarshal, hnew]
  rcases hdo : env.Do (buildRequest env c url method isGetVersion body) with err | resp
  · rfl
  · simp only []
    rcases hbody : resp.Body with err | respContent
    · rfl
    · simp only []
      split_ifs
      · rfl
      · rcases hu : env.Unmarshal respContent with err | ptr
        · rfl
        · cases ptr with
          | none => rfl
          | some r => simp only []; split_ifs <;> rfl

/-- C9: after a request that succeeds (status outside 400..599, envelope code 0) and whose
response carries an `X-Auth-Token` header with first value `t`, the stored token is `t` and
the only entry under that key, every other stored header and every other field of the client
is unchanged, and the next request carries `t` under the token key; a successful response
without such a header leaves the client unchanged. -/
theorem request_token {Params : Type} (env : Env Params) (c : Cli)
    (url method : String) (isGetVersion : Bool) (reqParams : Option Params) (resp : Response)
    (respContent : String) (respResult : responseResult)
    (hrecv : Receives env c url method isGetVersion reqParams resp respContent)
    (hstatus : ¬ (400 ≤ resp.StatusCode ∧ resp.StatusCode ≤ 599))
    (hdecode : env.Unmarshal respContent = .ok (some respResult))
    (hcode : respResult.RespCode = 0) :
    (request env c url method isGetVersion reqParams).ret = .ok respContent ∧
      (∀ (header : List (String × List String)) (t : String) (more : List String),
        resp.Header = some header → headerValues header "X-Auth-Token" = t :: more →
          (request env c url method isGetVersion reqParams).cli.headers.lookup "x-auth-token"
              = some t ∧
            (request env c url method isGetVersion reqParams).cli.headers.filter
              (fun entry => entry.1 == "x-auth-token") = [("x-auth-token", t)] ∧
            (∀ k, k ≠ "x-auth-token" →
              (request env c url method isGetVersion reqParams).cli.headers.lookup k =
                c.headers.lookup k) ∧
            (request env c url method isGetVersion reqParams).cli =
              { c with
                headers := (request env c url method isGetVersion reqParams).cli.headers } ∧
            (∀ (url2 method2 : String) (isGetVersion2 : Bool) (reqParams2 : Option Params)
              (body2 : String),
              marshalBody env reqParams2 = .ok body2 →
              env.NewRequest (env.ToUpper method2)
                (callUrl env.BasicURI (request env c url method isGetVersion reqParams).cli
                  url2 isGetVersion2) body2 = none →
              ∃ req,
                (request env (request env c url method isGetVersion reqParams).cli url2 method2
                  isGetVersion2 reqParams2).sent = [req] ∧
                req.Header.lookup "x-auth-token" = some t)) ∧
      ((resp.Header = none ∨
          ∃ header, resp.Header = some header ∧ headerValues header "X-Auth-Token" = []) →
        (request env c url method isGetVersion reqParams).cli = c) := by
  obtain ⟨_, _, _, hret, hcli⟩ :=
    request_of_receives env c url method isGetVersion reqParams resp respContent hrecv
  have hcli2 : (request env c url method isGetVersion reqParams).cli =
      captureToken c resp.Header := by
    rw [hcli]
    simp [hstatus, hdecode, hcode]
  refine ⟨?_, ?_, ?_⟩
  · rw [hret]
    simp [hstatus, hdecode, hcode]
  · intro header t more hheader htoken
    have hcli3 : (request env c url method isGetVersion reqParams).cli =
        { c with headers := mapSet c.headers "x-auth-token" t } := by
      rw [hcli2]
      simp [captureToken, hheader, htoken]
    rw [hcli3]
    refine ⟨lookup_mapSet_self _ _ _, filter_mapSet_self _ _ _,
      fun k hk => lookup_mapSet_ne _ _ _ _ hk, rfl, ?_⟩
    intro url2 method2 isGetVersion2 reqParams2 body2 hmarshal hnew
    refine ⟨_, request_sent env _ url2 method2 isGetVersion2 reqParams2 body2 hmarshal hnew, ?_⟩
    exact lookup_mapSet_self _ _ _
  · intro hno
    rw [hcli2]
    rcases hno with hnone | ⟨header, hheader, hempty⟩
    · simp [captureToken, hnone]
    · simp [captureToken, hheader, hempty]

/-- C9 on sample data: a login response with `X-Auth-Token: abc123` replaces the stale
token `old` and the next request carries `abc123`. -/
theorem request_token_witness :
    (request
        (sampleEnv (sampleResponse 200 (some [("X-Auth-Token", ["abc123"])])
          "\x7b\"result\":0\x7d") (.ok (some { RespCode := 0 })))
        { sampleCli with headers := [("x-auth-token", "old"), ("Referer", "ref")] }
        "/sec/login" "POST" false none).cli.headers =
        [("x-auth-token", "abc123"), ("Referer", "ref")] ∧
      (request
        (sampleEnv (sampleResponse 200 (some [("X-Auth-Token", ["abc123"])])
          "\x7b\"result\":0\x7d") (.ok (some { RespCode := 0 })))
        { sampleCli with headers := [("x-auth-token", "old"), ("Referer", "ref")] }
        "/sec/login" "POST" false none).cli.headers.lookup "x-auth-token" = some "abc123" :=
  ⟨by decide,
    ((request_token
      (sampleEnv (sampleResponse 200 (some [("X-Auth-Token", ["abc123"])])
        "\x7b\"result\":0\x7d") (.ok (some { RespCode := 0 })))
      { sampleCli with headers := [("x-auth-token", "old"), ("Referer", "ref")] }
      "/sec/login" "POST" false none
      (sampleResponse 200 (some [("X-Auth-Token", ["abc123"])]) "\x7b\"result\":0\x7d")
      "\x7b\"result\":0\x7d" { RespCode := 0 }
      (sampleEnv_receives _ _ _ _ _ _ _ _) (by decide) rfl rfl).2.1
      [("X-Auth-Token", ["abc123"])] "abc123" [] rfl (by decide)).1⟩

/-- C10: the address `request` builds is `addess ++ BasicURI ++ version ++ url` for a
versioned call and `addess ++ BasicURI ++ url` for a bootstrap call, whatever the session's
version is; with version `v3` and path `/volume/create` the versioned address is
`addess ++ BasicURI ++ "v3" ++ "/volume/create"`; with an empty version the two coincide;
and this address is the one of the request handed to the transport. -/
theorem request_callUrl {Params : Type} (env : Env Params) (c : Cli) (url method : String)
    (isGetVersion : Bool) (reqParams : Option Params) :
    callUrl env.BasicURI c url false = c.addess ++ env.BasicURI ++ c.version ++ url ∧
      callUrl env.BasicURI c url true = c.addess ++ env.BasicURI ++ url ∧
      (∀ v, callUrl env.BasicURI { c with version := v } url true =
        callUrl env.BasicURI c url true) ∧
      callUrl env.BasicURI { c with version := "v3" } "/volume/create" false =
        c.addess ++ env.BasicURI ++ "v3" ++ "/volume/create" ∧
      callUrl env.BasicURI { c with version := "" } url false =
        callUrl env.BasicURI { c with version := "" } url true ∧
      (∀ body, marshalBody env reqParams = .ok body →
        env.NewRequest (env.ToUpper method) (callUrl env.BasicURI c url isGetVersion) body
          = none →
        ∃ req, (request env c url method isGetVersion reqParams).sent = [req] ∧
          req.URL = callUrl env.BasicURI c url isGetVersion) := by
  refine ⟨rfl, rfl, fun _ => rfl, rfl, ?_, ?_⟩
  · simp [callUrl]
  · intro body hmarshal hnew
    exact ⟨_, request_sent env c url method isGetVersion reqParams body hmarshal hnew, rfl⟩

/-- C10 on sample data: the versioned and the bootstrap address of the sample client. -/
theorem request_callUrl_witness :
    callUrl "/dsware/service/" sampleCli "/volume/create" false =
        "https://fm:28443/dsware/service/v3/volume/create" ∧
      callUrl "/dsware/service/" sampleCli "rest/version" true =
        "https://fm:28443/dsware/service/rest/version" ∧
      ∃ req,
        (request
          (sampleEnv (sampleResponse 200 none "\x7b\"result\":0\x7d")
            (.ok (some { RespCode := 0 })))
          sampleCli "/volume/create" "POST" false none).sent = [req] ∧
        req.URL = "https://fm:28443/dsware/service/v3/volume/create" :=
  ⟨by decide, by decide,
    (request_callUrl
      (sampleEnv (sampleResponse 200 none "\x7b\"result\":0\x7d")
        (.ok (some { RespCode := 0 })))
      sampleCli "/volume/create" "POST" false none).2.2.2.2.2 "" rfl rfl⟩

end FusionStorage
